import Mathlib

/-!
Verification development for the r2http worker: an HTTP handler that serves a
private R2 bucket behind HTTP basic authentication, with optional index-file
fallback. The definitions below are a shallow embedding of the source
(`src/index.ts`): the bucket is modelled as a pure map from keys to optional
stored objects, JS exceptions as an `Except` layer, and each storage access is
additionally recorded in a trace of queried keys so that sequencing and
call-count properties can be stated.
-/

namespace R2Http

/-- An R2 object body as seen by the handler: an integrity tag (`httpEtag`),
the HTTP metadata headers written by `writeHttpMetadata`, and the content
stream (modelled as an opaque string). -/
structure StoredObject where
  httpEtag : String
  httpMetadata : List (String × String)
  body : String
deriving Repr, DecidableEq

/-- An HTTP response: status, body text (for a file response, the object's
stream), and headers as an association list. -/
structure Response where
  status : Nat
  body : String
  headers : List (String × String)
deriving Repr, DecidableEq

/-- An inbound request: its method, the URL pathname, and the value of the
`Authorization` header (`none` when absent). -/
structure Request where
  method : String
  pathname : String
  authorization : Option String
deriving Repr, DecidableEq

/-- The worker environment: the two credential secrets, the `INDEX` binding,
and the R2 bucket modelled as a pure key-to-object map (`r2.get`). -/
structure Environment where
  USERNAME : String
  PASSWORD : String
  INDEX : String
  r2 : String → Option StoredObject

/-- A parsed basic-authentication credential. -/
structure BasicCredential where
  username : String
  password : String
deriving Repr, DecidableEq

/-- The `HttpError` class: status, description, and the optional extra
headers (empty list when the constructor received none). -/
structure HttpError where
  status : Nat
  description : String
  headers : List (String × String)
deriving Repr, DecidableEq

/-- `HttpError.toResponse`: plain-text response `"<status> - <message>"` with
the error's status and headers. -/
def HttpError.toResponse (e : HttpError) : Response :=
  { status := e.status
    body := toString e.status ++ " - " ++ e.description
    headers := e.headers }

/-- A thrown JS value: either an `HttpError`, or any other exception (such as
the `InvalidCharacterError` thrown by `atob`), which the top-level catch does
not inspect further. -/
inductive Thrown where
  | http (e : HttpError)
  | js
deriving Repr, DecidableEq

/-- JS `String.prototype.split` with a single-character separator (the source
only ever splits on `" "` and `":"`): cut the string at every occurrence of
the separator, keeping empty segments. -/
def splitChar (sep : Char) (s : String) : List String :=
  (s.toList.foldr
    (fun c acc =>
      match acc with
      | [] => [[c]]
      | cur :: rest => if c = sep then [] :: cur :: rest else (c :: cur) :: rest)
    [[]]).map String.mk

/-- Lower-case an ASCII letter (the comparison target `"basic"` is ASCII, so
this agrees with JS `toLowerCase` for every string that could compare equal). -/
def lowerChar (c : Char) : Char :=
  if 'A' ≤ c ∧ c ≤ 'Z' then Char.ofNat (c.toNat + 32) else c

/-- JS `String.prototype.toLowerCase`, restricted to ASCII. -/
def toLowerAscii (s : String) : String :=
  String.mk (s.toList.map lowerChar)

/-- Whitespace removed by JS `String.prototype.trim`. -/
def isJsWhitespace (c : Char) : Bool :=
  c = ' ' || c = '\t' || c = '\n' || c = '\r' || c = Char.ofNat 11 || c = Char.ofNat 12

/-- JS `String.prototype.trim`: strip whitespace from both ends. -/
def jsTrim (s : String) : String :=
  String.mk (((s.toList.dropWhile isJsWhitespace).reverse.dropWhile isJsWhitespace).reverse)

/-- Whether a string starts with the given character. -/
def startsWithChar (c : Char) (s : String) : Bool :=
  match s.toList with
  | [] => false
  | d :: _ => d = c

/-- Whether a string ends with the given character. -/
def endsWithChar (c : Char) (s : String) : Bool :=
  match s.toList.getLast? with
  | none => false
  | some d => d = c

/-- JS `s.substring(1)`: drop the first character. -/
def dropFirst (s : String) : String :=
  String.mk (s.toList.drop 1)

/-- JS `s.substring(0, s.length - 1)`: drop the last character. -/
def dropLastChar (s : String) : String :=
  String.mk s.toList.dropLast

/-- ASCII whitespace stripped by forgiving-base64 decoding. -/
def isBase64Whitespace (c : Char) : Bool :=
  c = '\t' || c = '\n' || c = Char.ofNat 12 || c = '\r' || c = ' '

/-- Position of a character in the base64 alphabet, `none` for a foreign
character. -/
def base64CharIndex (c : Char) : Option Nat :=
  if 'A' ≤ c ∧ c ≤ 'Z' then some (c.toNat - 'A'.toNat)
  else if 'a' ≤ c ∧ c ≤ 'z' then some (c.toNat - 'a'.toNat + 26)
  else if '0' ≤ c ∧ c ≤ '9' then some (c.toNat - '0'.toNat + 52)
  else if c = '+' then some 62
  else if c = '/' then some 63
  else none

/-- Remove up to two trailing `=` signs when the data length is a multiple of
four (forgiving-base64, step 2). -/
def stripBase64Padding (cs : List Char) : List Char :=
  if cs.length % 4 = 0 then
    match cs.reverse with
    | '=' :: '=' :: rest => rest.reverse
    | '=' :: rest => rest.reverse
    | _ => cs
  else cs

/-- Assemble a big-endian bit stream from 6-bit groups and keep the complete
bytes, discarding trailing partial bits. -/
def sextetsToBytes (idxs : List Nat) : List Nat :=
  let numBytes := 6 * idxs.length / 8
  let discard := 6 * idxs.length - 8 * numBytes
  let total := idxs.foldl (fun a i => a * 64 + i) 0
  let v := total / 2 ^ discard
  (List.range numBytes).map (fun i => v / 256 ^ (numBytes - 1 - i) % 256)

/-- JS `atob` (WHATWG forgiving-base64 decode). `none` models the thrown
`InvalidCharacterError`; a decoded byte becomes one character of the result,
as in a JS binary string. -/
def atob (s : String) : Option String :=
  let data := s.toList.filter (fun c => !(isBase64Whitespace c))
  let data := stripBase64Padding data
  if data.length % 4 = 1 then none
  else
    match data.mapM base64CharIndex with
    | none => none
    | some idxs => some (String.mk ((sextetsToBytes idxs).map Char.ofNat))

/-- The tail of `extractBasicCredential`: destructure
`atob(encoded).split(":")` into its first two segments (a missing segment, JS
`undefined`, is falsy exactly like the empty string) and reject when either is
falsy. -/
def parseDecodedCredential (decoded : String) : Option BasicCredential :=
  let segs := splitChar ':' decoded
  let username := segs.headD ""
  let password := (segs.drop 1).headD ""
  if username = "" ∨ password = "" then none
  else some { username := username, password := password }

/-- `extractBasicCredential`: read the `Authorization` header (a missing or
empty header is falsy), split on spaces into exactly two non-empty tokens with
a case-insensitive `basic` scheme, then base64-decode the second token — a
decode failure is a thrown (non-`HttpError`) exception — and parse the
decoded text. -/
def extractBasicCredential (request : Request) : Except Thrown (Option BasicCredential) :=
  match request.authorization with
  | none => .ok none
  | some authHeader =>
    if authHeader = "" then .ok none
    else
      let parts := splitChar ' ' authHeader
      if parts.length ≠ 2 then .ok none
      else
        let mode := parts.headD ""
        let encoded := (parts.drop 1).headD ""
        if mode = "" ∨ encoded = "" ∨ toLowerAscii mode ≠ "basic" then .ok none
        else
          match atob encoded with
          | none => .error Thrown.js
          | some decoded => .ok (parseDecodedCredential decoded)

/-- The `HttpError(401, "Unauthorized", ...)` thrown by `authenticateBasic`. -/
def unauthorizedError : HttpError :=
  { status := 401, description := "Unauthorized"
    headers := [("WWW-Authenticate", "Basic")] }

/-- `authenticateBasic`: throw 401 unless a credential was extracted and both
parts equal the configured secrets; a thrown decode error propagates. -/
def authenticateBasic (request : Request) (env : Environment) : Except Thrown Unit :=
  match extractBasicCredential request with
  | .error e => .error e
  | .ok none => .error (.http unauthorizedError)
  | .ok (some credential) =>
    if credential.username ≠ env.USERNAME ∨ credential.password ≠ env.PASSWORD then
      .error (.http unauthorizedError)
    else .ok ()

/-- `assertGetMethod`: throw `HttpError(405, "Method Not Allowed")` unless the
method is exactly `"GET"`. -/
def assertGetMethod (request : Request) : Except Thrown Unit :=
  if request.method ≠ "GET" then
    .error (.http { status := 405, description := "Method Not Allowed", headers := [] })
  else .ok ()

/-- `getRequestPath`: `url.pathname.substring(1)`. -/
def getRequestPath (request : Request) : String :=
  dropFirst request.pathname

/-- `downloadR2Object`: a single `r2.get(path)` call. -/
def downloadR2Object (path : String) (r2 : String → Option StoredObject) :
    Option StoredObject :=
  r2 path

/-- `joinPath`, verbatim from the source: force a trailing `/` on the parent;
when the child starts with `/`, take `child.substring(0, child.length - 1)`
(all but the LAST character); concatenate; strip one leading `/` from the
result. -/
def joinPath (parent : String) (child : String) : String :=
  let first := if endsWithChar '/' parent then parent else parent ++ "/"
  let second := if startsWithChar '/' child then dropLastChar child else child
  let out := first ++ second
  if startsWithChar '/' out then dropFirst out else out

/-- The `for` loop of `downloadIndexFile`: try each candidate filename in
order, returning the first hit; the second component records every key
queried, in order. -/
def indexLoop (r2 : String → Option StoredObject) (requestPath : String) :
    List String → Option StoredObject × List String
  | [] => (none, [])
  | index :: rest =>
    let indexFile := joinPath requestPath index
    match r2 indexFile with
    | some object => (some object, [indexFile])
    | none =>
      let step := indexLoop r2 requestPath rest
      (step.1, indexFile :: step.2)

/-- `downloadIndexFile`: split the `INDEX` binding on `:`, trim each name,
and run the lookup loop. Also returns the trace of queried keys. -/
def downloadIndexFile (requestPath : String) (r2 : String → Option StoredObject)
    (indexFiles : String) : Option StoredObject × List String :=
  let indexes := (splitChar ':' indexFiles).map (fun name => jsTrim name)
  indexLoop r2 requestPath indexes

/-- `createFileResponse`: headers start with `etag: httpEtag`, then
`writeHttpMetadata` adds the object's own metadata headers; the body is the
object's stream; `new Response` defaults to status 200. -/
def createFileResponse (object : StoredObject) : Response :=
  { status := 200
    body := object.body
    headers := ("etag", object.httpEtag) :: object.httpMetadata }

/-- The body of the `try` block of `fetch`, paired with the trace of storage
keys queried (in order). -/
def fetchCore (request : Request) (env : Environment) :
    Except Thrown Response × List String :=
  match assertGetMethod request with
  | .error e => (.error e, [])
  | .ok _ =>
    match authenticateBasic request env with
    | .error e => (.error e, [])
    | .ok _ =>
      let path := getRequestPath request
      match downloadR2Object path env.r2 with
      | some object => (.ok (createFileResponse object), [path])
      | none =>
        match downloadIndexFile path env.r2 env.INDEX with
        | (some index, keys) => (.ok (createFileResponse index), path :: keys)
        | (none, keys) =>
          (.error (.http { status := 404, description := "Not found", headers := [] }),
           path :: keys)

/-- The generic catch-all response for a thrown value that is not an
`HttpError`. -/
def serverFaultResponse : Response :=
  { status := 500, body := "Oops! It's server side fault", headers := [] }

/-- The exported `fetch` handler: run the pipeline, convert an `HttpError` via
`toResponse`, and map any other thrown value to the fixed 500 response. -/
def fetch (request : Request) (env : Environment) : Response :=
  match (fetchCore request env).1 with
  | .ok response => response
  | .error (.http e) => e.toResponse
  | .error .js => serverFaultResponse

/-- The keys queried on the storage backend while handling a request, in
order. -/
def fetchKeys (request : Request) (env : Environment) : List String :=
  (fetchCore request env).2

/-- The index-candidate keys for a request, in configuration order: each
configured filename (split on `:`, trimmed) joined onto the request path. -/
def indexKeys (request : Request) (env : Environment) : List String :=
  ((splitChar ':' env.INDEX).map (fun name => jsTrim name)).map
    (fun name => joinPath (getRequestPath request) name)

/-- A stored object used by concrete test scenarios (the spec's `bar/baz`
object). -/
def objW : StoredObject :=
  { httpEtag := "etag-1"
    httpMetadata := [("content-type", "text/plain")]
    body := "Welcome to the hell" }

/-- The test environment of the repository's test suite: credentials
`me` / `***`, index list `index.html:index.txt`, one object at `bar/baz`. -/
def envW : Environment :=
  { USERNAME := "me", PASSWORD := "***", INDEX := "index.html:index.txt"
    r2 := fun k => if k = "bar/baz" then some objW else none }

/-- A valid GET request for `/bar/baz` (`bWU6Kioq` is base64 of `me:***`). -/
def reqW : Request :=
  { method := "GET", pathname := "/bar/baz", authorization := some "Basic bWU6Kioq" }

/-- A stored object sitting at the literal key `zzz/` (a key with a trailing
slash), used to probe the empty-index configuration. -/
def objC3 : StoredObject :=
  { httpEtag := "etag-3"
    httpMetadata := [("content-type", "text/plain")]
    body := "trailing slash object" }

/-- An environment whose `INDEX` binding is the empty string and whose bucket
holds only the key `zzz/`. -/
def envC3 : Environment :=
  { USERNAME := "me", PASSWORD := "***", INDEX := ""
    r2 := fun k => if k = "zzz/" then some objC3 else none }

/-- A valid GET request for `/zzz`. -/
def reqC3 : Request :=
  { method := "GET", pathname := "/zzz", authorization := some "Basic bWU6Kioq" }

end R2Http

deriving instance DecidableEq for Except

namespace R2Http

lemma assertGetMethod_get {req : Request} (h : req.method = "GET") :
    assertGetMethod req = .ok () := by
  simp [assertGetMethod, h]

lemma assertGetMethod_not_get {req : Request} (h : req.method ≠ "GET") :
    assertGetMethod req =
      .error (.http { status := 405, description := "Method Not Allowed", headers := [] }) := by
  simp [assertGetMethod, h]

lemma assertGetMethod_cases (req : Request) :
    assertGetMethod req = .ok () ∨
    assertGetMethod req =
      .error (.http { status := 405, description := "Method Not Allowed", headers := [] }) := by
  by_cases h : req.method = "GET"
  · exact Or.inl (assertGetMethod_get h)
  · exact Or.inr (assertGetMethod_not_get h)

lemma extract_error_js {req : Request} {e : Thrown}
    (h : extractBasicCredential req = .error e) : e = Thrown.js := by
  unfold extractBasicCredential at h
  dsimp only at h
  split at h
  · simp at h
  · split at h
    · simp at h
    · split at h
      · simp at h
      · split at h
        · simp at h
        · split at h
          · simp_all
          · simp at h

lemma authenticateBasic_cases (req : Request) (env : Environment) :
    authenticateBasic req env = .ok () ∨
    authenticateBasic req env = .error Thrown.js ∨
    authenticateBasic req env = .error (.http unauthorizedError) := by
  unfold authenticateBasic
  rcases hx : extractBasicCredential req with e | co
  · have he := extract_error_js hx
    subst he
    simp
  · rcases co with _ | cred
    · simp
    · by_cases hc : cred.username ≠ env.USERNAME ∨ cred.password ≠ env.PASSWORD
      · simp [hc]
      · simp [hc]

lemma fetchCore_ok {req : Request} {env : Environment}
    (hget : req.method = "GET") (hauth : authenticateBasic req env = .ok ()) :
    fetchCore req env =
      match env.r2 (getRequestPath req) with
      | some object => (.ok (createFileResponse object), [getRequestPath req])
      | none =>
        match downloadIndexFile (getRequestPath req) env.r2 env.INDEX with
        | (some index, keys) => (.ok (createFileResponse index), getRequestPath req :: keys)
        | (none, keys) =>
          (.error (.http { status := 404, description := "Not found", headers := [] }),
           getRequestPath req :: keys) := by
  unfold fetchCore
  rw [assertGetMethod_get hget, hauth]
  simp [downloadR2Object]

lemma fetchCore_cases (req : Request) (env : Environment) :
    fetchCore req env =
      (.error (.http { status := 405, description := "Method Not Allowed", headers := [] }), []) ∨
    fetchCore req env = (.error Thrown.js, []) ∨
    fetchCore req env = (.error (.http unauthorizedError), []) ∨
    (∃ o, env.r2 (getRequestPath req) = some o ∧
      fetchCore req env = (.ok (createFileResponse o), [getRequestPath req])) ∨
    (env.r2 (getRequestPath req) = none ∧
      ∃ o keys, downloadIndexFile (getRequestPath req) env.r2 env.INDEX = (some o, keys) ∧
        fetchCore req env = (.ok (createFileResponse o), getRequestPath req :: keys)) ∨
    (env.r2 (getRequestPath req) = none ∧
      ∃ keys, downloadIndexFile (getRequestPath req) env.r2 env.INDEX = (none, keys) ∧
        fetchCore req env =
          (.error (.http { status := 404, description := "Not found", headers := [] }),
           getRequestPath req :: keys)) := by
  by_cases hm : req.method = "GET"
  · rcases authenticateBasic_cases req env with hb | hb | hb
    · have hcore := fetchCore_ok hm hb
      rcases hd : env.r2 (getRequestPath req) with _ | o
      · rw [hd] at hcore
        rcases hf : downloadIndexFile (getRequestPath req) env.r2 env.INDEX with ⟨res, keys⟩
        rw [hf] at hcore
        rcases res with _ | o
        · exact Or.inr (Or.inr (Or.inr (Or.inr (Or.inr ⟨rfl, keys, rfl, hcore.trans rfl⟩))))
        · exact Or.inr (Or.inr (Or.inr (Or.inr (Or.inl ⟨rfl, o, keys, rfl, hcore.trans rfl⟩))))
      · rw [hd] at hcore
        exact Or.inr (Or.inr (Or.inr (Or.inl ⟨o, rfl, hcore.trans rfl⟩)))
    · refine Or.inr (Or.inl ?_)
      unfold fetchCore
      rw [assertGetMethod_get hm, hb]
    · refine Or.inr (Or.inr (Or.inl ?_))
      unfold fetchCore
      rw [assertGetMethod_get hm, hb]
  · refine Or.inl ?_
    unfold fetchCore
    rw [assertGetMethod_not_get hm]

lemma fetch_auth_http {req : Request} {env : Environment} {he : HttpError}
    (hget : req.method = "GET")
    (hb : authenticateBasic req env = .error (.http he)) :
    fetch req env = he.toResponse := by
  unfold fetch fetchCore
  rw [assertGetMethod_get hget, hb]

lemma fetch_auth_js {req : Request} {env : Environment}
    (hget : req.method = "GET")
    (hb : authenticateBasic req env = .error Thrown.js) :
    fetch req env = serverFaultResponse := by
  unfold fetch fetchCore
  rw [assertGetMethod_get hget, hb]

lemma mem_dropLast_cons {α : Type} {k x : α} {xs : List α}
    (h : k ∈ (x :: xs).dropLast) : k = x ∨ k ∈ xs.dropLast := by
  cases xs with
  | nil => simp at h
  | cons y ys =>
    have hd : (x :: y :: ys).dropLast = x :: (y :: ys).dropLast := rfl
    rw [hd, List.mem_cons] at h
    exact h

lemma indexLoop_keys_take (r2 : String → Option StoredObject) (requestPath : String)
    (l : List String) :
    ∃ n, (indexLoop r2 requestPath l).2 =
      (l.map (fun i => joinPath requestPath i)).take n := by
  induction l with
  | nil => exact ⟨0, rfl⟩
  | cons i rest ih =>
    rcases ih with ⟨n, hn⟩
    rcases h : r2 (joinPath requestPath i) with _ | o
    · refine ⟨n + 1, ?_⟩
      simp only [indexLoop, h, List.map_cons, List.take_succ_cons]
      rw [hn]
    · exact ⟨1, by simp [indexLoop, h]⟩

lemma indexLoop_dropLast_none (r2 : String → Option StoredObject) (requestPath : String)
    (l : List String) :
    ∀ k ∈ (indexLoop r2 requestPath l).2.dropLast, r2 k = none := by
  induction l with
  | nil => intro k hk; simp [indexLoop] at hk
  | cons i rest ih =>
    intro k hk
    rcases h : r2 (joinPath requestPath i) with _ | o
    · simp only [indexLoop, h] at hk
      rcases mem_dropLast_cons hk with hk | hk
      · subst hk; exact h
      · exact ih k hk
    · simp [indexLoop, h] at hk

lemma downloadIndexFile_keys_take (requestPath : String) (r2 : String → Option StoredObject)
    (indexFiles : String) :
    ∃ n, (downloadIndexFile requestPath r2 indexFiles).2 =
      (((splitChar ':' indexFiles).map (fun name => jsTrim name)).map
        (fun i => joinPath requestPath i)).take n :=
  indexLoop_keys_take r2 requestPath _

lemma downloadIndexFile_dropLast_none (requestPath : String)
    (r2 : String → Option StoredObject) (indexFiles : String) :
    ∀ k ∈ (downloadIndexFile requestPath r2 indexFiles).2.dropLast, r2 k = none :=
  indexLoop_dropLast_none r2 requestPath _

lemma filter_length_le_one {α : Type} (p : α → Bool) :
    ∀ l : List α, (∀ k ∈ l.dropLast, p k = false) → (l.filter p).length ≤ 1 := by
  intro l
  induction l with
  | nil => intro _; simp
  | cons x xs ih =>
    intro h
    cases xs with
    | nil =>
      cases hp : p x <;> simp [List.filter_cons, hp]
    | cons y ys =>
      have hd : (x :: y :: ys).dropLast = x :: (y :: ys).dropLast := rfl
      have hx : p x = false := h x (by rw [hd]; exact List.mem_cons_self x _)
      have hrest : ∀ k ∈ (y :: ys).dropLast, p k = false := by
        intro k hk
        exact h k (by rw [hd]; exact List.mem_cons_of_mem _ hk)
      have hle := ih hrest
      simpa [List.filter_cons, hx] using hle

lemma fetchKeys_dropLast_none (req : Request) (env : Environment) :
    ∀ k ∈ (fetchKeys req env).dropLast, env.r2 k = none := by
  intro k hk
  rcases fetchCore_cases req env with hc | hc | hc | ⟨o, hd, hc⟩ | ⟨hd, o, keys, hf, hc⟩ |
    ⟨hd, keys, hf, hc⟩ <;> unfold fetchKeys at hk <;> rw [hc] at hk
  · simp at hk
  · simp at hk
  · simp at hk
  · simp at hk
  · rcases mem_dropLast_cons hk with hk | hk
    · subst hk; exact hd
    · have hkeys := downloadIndexFile_dropLast_none (getRequestPath req) env.r2 env.INDEX
      rw [hf] at hkeys
      exact hkeys k hk
  · rcases mem_dropLast_cons hk with hk | hk
    · subst hk; exact hd
    · have hkeys := downloadIndexFile_dropLast_none (getRequestPath req) env.r2 env.INDEX
      rw [hf] at hkeys
      exact hkeys k hk

set_option maxRecDepth 100000

/-- C1: evaluation of `joinPath` at the failing input. The claim says a
leading slash on the filename is collapsed so that exactly one `/` separates a
non-empty parent from the filename; the code instead keeps the leading slash
and drops the LAST character of the filename, so `joinPath "a" "/b"` yields
`"a//"` rather than `"a/b"`. The slash-free cases behave as claimed. -/
theorem C1_joinPath_keeps_leading_slash :
    joinPath "a" "/b" = "a//" ∧ "a//" ≠ "a/b" ∧
    joinPath "a/" "b" = "a/b" ∧ joinPath "a" "b" = "a/b" ∧ joinPath "" "b" = "b" := by
  refine ⟨by decide, by decide, by decide, by decide, by decide⟩

/-- C2 counterexample: a GET request whose `Authorization` header is
`Basic %%%%` — two space-separated tokens, scheme `Basic`, but a second token
that fails base64 decoding — is answered 500 with the generic server-fault
body and no `WWW-Authenticate` header, not 401 as the claim states. -/
theorem C2_counterexample_bad_base64 :
    atob "%%%%" = none ∧
    fetch { method := "GET", pathname := "/bar/baz", authorization := some "Basic %%%%" } envW
      = serverFaultResponse ∧
    serverFaultResponse.status ≠ 401 := by
  refine ⟨by decide, by decide, by decide⟩

/-- C2 (amended): among GET requests, every request that lacks a valid,
matching Basic credential is answered 401 with body `"401 - Unauthorized"`
and a `WWW-Authenticate: Basic` header — except when credential extraction
throws (the second token fails base64 decoding), in which case the response
is the generic 500 server-fault response. -/
theorem C2_auth_failure_responses (req : Request) (env : Environment)
    (hget : req.method = "GET")
    (hinv : ¬ ∃ cred, extractBasicCredential req = .ok (some cred) ∧
      cred.username = env.USERNAME ∧ cred.password = env.PASSWORD) :
    fetch req env =
      if extractBasicCredential req = .error Thrown.js then serverFaultResponse
      else { status := 401, body := "401 - Unauthorized"
             headers := [("WWW-Authenticate", "Basic")] } := by
  rcases hx : extractBasicCredential req with e | co
  · have he := extract_error_js hx
    subst he
    rw [if_pos rfl]
    exact fetch_auth_js hget (by unfold authenticateBasic; rw [hx])
  · rw [if_neg (by simp)]
    rcases co with _ | cred
    · have hb : authenticateBasic req env = .error (.http unauthorizedError) := by
        unfold authenticateBasic
        rw [hx]
      rw [fetch_auth_http hget hb]
      decide
    · have hc : cred.username ≠ env.USERNAME ∨ cred.password ≠ env.PASSWORD := by
        by_contra hcon
        push_neg at hcon
        exact hinv ⟨cred, hx, hcon.1, hcon.2⟩
      have hb : authenticateBasic req env = .error (.http unauthorizedError) := by
        unfold authenticateBasic
        rw [hx]
        exact if_pos hc
      rw [fetch_auth_http hget hb]
      decide

/-- C2 witness: a GET request with no `Authorization` header at all is
answered per the amended statement (here the non-throwing branch: 401). -/
theorem C2_witness :
    fetch { method := "GET", pathname := "/bar/baz", authorization := none } envW =
      if extractBasicCredential { method := "GET", pathname := "/bar/baz", authorization := none }
          = .error Thrown.js
      then serverFaultResponse
      else { status := 401, body := "401 - Unauthorized"
             headers := [("WWW-Authenticate", "Basic")] } :=
  C2_auth_failure_responses _ envW rfl (by
    rintro ⟨c, hc, -⟩
    rw [(by decide :
      extractBasicCredential { method := "GET", pathname := "/bar/baz", authorization := none }
        = .ok none)] at hc
    exact absurd hc (by simp))

/-- C3 counterexample: with the empty-string index configuration, a GET for
`/zzz` whose direct key misses still performs a second storage lookup, at key
`zzz/`, and here finds an object there — the response is 200, not 404, and
two keys were queried. -/
theorem C3_counterexample_empty_index :
    envC3.INDEX = "" ∧
    fetch reqC3 envC3 = createFileResponse objC3 ∧
    (fetch reqC3 envC3).status = 200 ∧
    fetchKeys reqC3 envC3 = ["zzz", "zzz/"] := by
  refine ⟨by decide, by decide, by decide, by decide⟩

/-- C3 (amended): an empty index configuration does not disable fallback:
splitting `""` on `:` yields the single candidate filename `""`, so an
authenticated GET whose direct lookup misses performs exactly one further
lookup, at `joinPath path ""` (the path with a trailing slash appended), and
the response is 404 only when that lookup also misses, otherwise that
object's file response. (An absent binding is not representable: `INDEX` is
typed as a required string.) -/
theorem C3_empty_index_fallback (req : Request) (env : Environment)
    (hget : req.method = "GET") (hauth : authenticateBasic req env = .ok ())
    (hidx : env.INDEX = "") (hmiss : env.r2 (getRequestPath req) = none) :
    fetchKeys req env = [getRequestPath req, joinPath (getRequestPath req) ""] ∧
    fetch req env = (env.r2 (joinPath (getRequestPath req) "")).elim
      { status := 404, body := "404 - Not found", headers := [] }
      createFileResponse := by
  have hcore := fetchCore_ok hget hauth
  rw [hmiss] at hcore
  have hcand : downloadIndexFile (getRequestPath req) env.r2 env.INDEX
      = indexLoop env.r2 (getRequestPath req) [""] := by
    unfold downloadIndexFile
    rw [hidx, (by decide : (splitChar ':' "").map (fun name => jsTrim name) = [""])]
  rw [hcand] at hcore
  rcases hfb : env.r2 (joinPath (getRequestPath req) "") with _ | o
  · have hloop : indexLoop env.r2 (getRequestPath req) [""]
        = (none, [joinPath (getRequestPath req) ""]) := by
      unfold indexLoop
      dsimp only
      rw [hfb]
      rfl
    rw [hloop] at hcore
    have hcore2 : fetchCore req env =
        (.error (.http { status := 404, description := "Not found", headers := [] }),
         [getRequestPath req, joinPath (getRequestPath req) ""]) := hcore.trans rfl
    refine ⟨?_, ?_⟩
    · unfold fetchKeys
      rw [hcore2]
    · unfold fetch
      rw [hcore2]
      show HttpError.toResponse { status := 404, description := "Not found", headers := [] }
        = Option.elim none { status := 404, body := "404 - Not found", headers := [] }
            createFileResponse
      decide
  · have hloop : indexLoop env.r2 (getRequestPath req) [""]
        = (some o, [joinPath (getRequestPath req) ""]) := by
      unfold indexLoop
      dsimp only
      rw [hfb]
    rw [hloop] at hcore
    have hcore2 : fetchCore req env =
        (.ok (createFileResponse o),
         [getRequestPath req, joinPath (getRequestPath req) ""]) := hcore.trans rfl
    refine ⟨?_, ?_⟩
    · unfold fetchKeys
      rw [hcore2]
    · unfold fetch
      rw [hcore2]
      rfl

/-- C3 witness: the amended statement at the concrete scenario (direct key
`zzz` missing, object present at `zzz/`). -/
theorem C3_witness :
    fetchKeys reqC3 envC3 = [getRequestPath reqC3, joinPath (getRequestPath reqC3) ""] ∧
    fetch reqC3 envC3 = (envC3.r2 (joinPath (getRequestPath reqC3) "")).elim
      { status := 404, body := "404 - Not found", headers := [] }
      createFileResponse :=
  C3_empty_index_fallback reqC3 envC3 rfl (by decide) rfl (by decide)

/-- C4 counterexample: the decoded text `u:p:q` is split on EVERY colon and
only the first two segments are kept, so the parsed password is `"p"`, not
`"p:q"` as the split-on-first-colon claim states; consequently a request
carrying base64 of `u:p:q` against configured credentials `u` / `p:q` is
rejected with 401. -/
theorem C4_counterexample_password_truncated :
    atob "dTpwOnE=" = some "u:p:q" ∧
    extractBasicCredential
        { method := "GET", pathname := "/x", authorization := some "Basic dTpwOnE=" }
      = .ok (some { username := "u", password := "p" }) ∧
    ("p" : String) ≠ "p:q" ∧
    fetch { method := "GET", pathname := "/x", authorization := some "Basic dTpwOnE=" }
      { USERNAME := "u", PASSWORD := "p:q", INDEX := "index.html", r2 := fun _ => none }
      = { status := 401, body := "401 - Unauthorized"
          headers := [("WWW-Authenticate", "Basic")] } := by
  refine ⟨by decide, by decide, by decide, by decide⟩

/-- C4 (amended): credential parsing splits the decoded text on `:` and keeps
the first two segments as username and password (so a password containing `:`
is truncated at its first `:`); a parsed credential never has an empty side,
and authentication succeeds exactly when both parts equal the configured
values. -/
theorem C4_credential_parse_validate :
    (∀ decoded cred, parseDecodedCredential decoded = some cred →
      cred.username = (splitChar ':' decoded).headD "" ∧
      cred.password = ((splitChar ':' decoded).drop 1).headD "" ∧
      cred.username ≠ "" ∧ cred.password ≠ "") ∧
    ∀ (req : Request) (env : Environment) (cred : BasicCredential),
      extractBasicCredential req = .ok (some cred) →
      (authenticateBasic req env = .ok () ↔
        cred.username = env.USERNAME ∧ cred.password = env.PASSWORD) := by
  constructor
  · intro decoded cred hp
    unfold parseDecodedCredential at hp
    dsimp only at hp
    split at hp
    · simp at hp
    · rename_i hcond
      push_neg at hcond
      injection hp with hp
      subst hp
      exact ⟨rfl, rfl, hcond.1, hcond.2⟩
  · intro req env cred hx
    unfold authenticateBasic
    rw [hx]
    show (if cred.username ≠ env.USERNAME ∨ cred.password ≠ env.PASSWORD then
        (Except.error (Thrown.http unauthorizedError) : Except Thrown Unit)
      else .ok ()) = .ok () ↔ _
    by_cases hc : cred.username ≠ env.USERNAME ∨ cred.password ≠ env.PASSWORD
    · rw [if_pos hc]
      constructor
      · intro h
        exact absurd h (by simp)
      · intro hmatch
        rcases hc with hc | hc
        · exact absurd hmatch.1 hc
        · exact absurd hmatch.2 hc
    · rw [if_neg hc]
      push_neg at hc
      exact ⟨fun _ => hc, fun _ => rfl⟩

/-- C4 witness: the amended statement at `u:p:q` (truncation) and at the test
credentials (successful validation). -/
theorem C4_witness :
    (("u" : String) = (splitChar ':' "u:p:q").headD "" ∧
      ("p" : String) = ((splitChar ':' "u:p:q").drop 1).headD "" ∧
      ("u" : String) ≠ "" ∧ ("p" : String) ≠ "") ∧
    authenticateBasic reqW envW = .ok () :=
  ⟨C4_credential_parse_validate.1 "u:p:q" { username := "u", password := "p" } (by decide),
   (C4_credential_parse_validate.2 reqW envW { username := "me", password := "***" }
     (by decide)).mpr (by decide)⟩

/-- C5: per request at most one queried key holds an object among the keys a
request actually queries (every key before the last one misses), and when the
direct-key lookup succeeds the response is built from that object immediately
with no index-fallback lookup (the trace is exactly the direct key). -/
theorem C5_at_most_one_object :
    (∀ (req : Request) (env : Environment),
      ((fetchKeys req env).filter (fun k => (env.r2 k).isSome)).length ≤ 1) ∧
    ∀ (req : Request) (env : Environment) (o : StoredObject),
      req.method = "GET" → authenticateBasic req env = .ok () →
      env.r2 (getRequestPath req) = some o →
      fetch req env = createFileResponse o ∧ fetchKeys req env = [getRequestPath req] := by
  constructor
  · intro req env
    refine filter_length_le_one _ _ ?_
    intro k hk
    have hnone := fetchKeys_dropLast_none req env k hk
    simp [hnone]
  · intro req env o hget hauth hd
    have hcore := fetchCore_ok hget hauth
    rw [hd] at hcore
    have hcore2 : fetchCore req env =
        (.ok (createFileResponse o), [getRequestPath req]) := hcore.trans rfl
    constructor
    · unfold fetch
      rw [hcore2]
    · unfold fetchKeys
      rw [hcore2]

/-- C5 witness: the direct-hit scenario at `bar/baz`. -/
theorem C5_witness :
    ((fetchKeys reqW envW).filter (fun k => (envW.r2 k).isSome)).length ≤ 1 ∧
    (fetch reqW envW = createFileResponse objW ∧ fetchKeys reqW envW = [getRequestPath reqW]) :=
  ⟨C5_at_most_one_object.1 reqW envW,
   C5_at_most_one_object.2 reqW envW objW rfl (by decide) (by decide)⟩

/-- C6: the handler is total and fixed at its boundary: `HttpError.toResponse`
is exactly the plain-text `"<status> - <description>"` response with that
error's status and headers, and every response `fetch` can produce is either
a file response built from some stored object or one of the four fixed error
responses (405, 401, 404, generic 500). -/
theorem C6_responses_total_and_fixed :
    (∀ e : HttpError, e.toResponse =
      { status := e.status, body := toString e.status ++ " - " ++ e.description
        headers := e.headers }) ∧
    ∀ (req : Request) (env : Environment),
      (∃ o, fetch req env = createFileResponse o) ∨
      fetch req env = { status := 405, body := "405 - Method Not Allowed", headers := [] } ∨
      fetch req env = { status := 401, body := "401 - Unauthorized"
                        headers := [("WWW-Authenticate", "Basic")] } ∨
      fetch req env = { status := 404, body := "404 - Not found", headers := [] } ∨
      fetch req env = serverFaultResponse := by
  refine ⟨fun e => rfl, fun req env => ?_⟩
  rcases fetchCore_cases req env with hc | hc | hc | ⟨o, _, hc⟩ | ⟨_, o, keys, _, hc⟩ |
    ⟨_, keys, _, hc⟩
  · refine Or.inr (Or.inl ?_)
    unfold fetch
    rw [hc]
    decide
  · refine Or.inr (Or.inr (Or.inr (Or.inr ?_)))
    unfold fetch
    rw [hc]
  · refine Or.inr (Or.inr (Or.inl ?_))
    unfold fetch
    rw [hc]
    decide
  · exact Or.inl ⟨o, by unfold fetch; rw [hc]⟩
  · exact Or.inl ⟨o, by unfold fetch; rw [hc]⟩
  · refine Or.inr (Or.inr (Or.inr (Or.inl ?_)))
    unfold fetch
    rw [hc]
    show HttpError.toResponse { status := 404, description := "Not found", headers := [] } = _
    decide

/-- C7: for every found object the success response has status 200, an `etag`
header from the object's integrity tag followed by the object's own metadata
headers, and the object's content stream as body, unmodified; for an
authenticated GET whose direct lookup finds the object, `fetch` returns
exactly that response. -/
theorem C7_success_response :
    (∀ o : StoredObject, createFileResponse o =
      { status := 200, body := o.body
        headers := ("etag", o.httpEtag) :: o.httpMetadata }) ∧
    ∀ (req : Request) (env : Environment) (o : StoredObject),
      req.method = "GET" → authenticateBasic req env = .ok () →
      env.r2 (getRequestPath req) = some o →
      fetch req env =
        { status := 200, body := o.body
          headers := ("etag", o.httpEtag) :: o.httpMetadata } := by
  refine ⟨fun o => rfl, ?_⟩
  intro req env o hget hauth hd
  have hcore := fetchCore_ok hget hauth
  rw [hd] at hcore
  have hcore2 : fetchCore req env =
      (.ok (createFileResponse o), [getRequestPath req]) := hcore.trans rfl
  unfold fetch
  rw [hcore2]
  rfl

/-- C7 witness: the spec's `bar/baz` scenario — 200, body
`"Welcome to the hell"`, content-type `text/plain`, non-empty etag. -/
theorem C7_witness :
    fetch reqW envW =
      { status := 200, body := objW.body
        headers := ("etag", objW.httpEtag) :: objW.httpMetadata } :=
  C7_success_response.2 reqW envW objW rfl (by decide) (by decide)

/-- C8: every request whose method is not exactly `"GET"` is answered 405
with body `"405 - Method Not Allowed"`. -/
theorem C8_non_get_405 (req : Request) (env : Environment) (h : req.method ≠ "GET") :
    fetch req env = { status := 405, body := "405 - Method Not Allowed", headers := [] } := by
  unfold fetch fetchCore
  rw [assertGetMethod_not_get h]
  show HttpError.toResponse { status := 405, description := "Method Not Allowed", headers := [] } = _
  decide

/-- C8 witness: a HEAD request is rejected with 405. -/
theorem C8_witness :
    fetch { method := "HEAD", pathname := "/bar/baz", authorization := none } envW =
      { status := 405, body := "405 - Method Not Allowed", headers := [] } :=
  C8_non_get_405 _ envW (by decide)

/-- C9: storage lookups are sequential and bounded: the queried keys are an
initial segment of the direct key followed by the index candidates in
configuration order, every key before the last one missed (the loop stops at
the first hit), and at most `1 + len(indexFileNames)` keys are queried. -/
theorem C9_sequential_lookups_bounded (req : Request) (env : Environment) :
    (fetchKeys req env).length ≤ 1 + (splitChar ':' env.INDEX).length ∧
    (∃ n, fetchKeys req env = (getRequestPath req :: indexKeys req env).take n) ∧
    ∀ k ∈ (fetchKeys req env).dropLast, env.r2 k = none := by
  refine ⟨?_, ?_, fetchKeys_dropLast_none req env⟩
  all_goals
    rcases fetchCore_cases req env with hc | hc | hc | ⟨o, hd, hc⟩ | ⟨hd, o, keys, hf, hc⟩ |
      ⟨hd, keys, hf, hc⟩
  · unfold fetchKeys; rw [hc]; simp
  · unfold fetchKeys; rw [hc]; simp
  · unfold fetchKeys; rw [hc]; simp
  · unfold fetchKeys; rw [hc]; simp
  · unfold fetchKeys
    rw [hc]
    have htake := downloadIndexFile_keys_take (getRequestPath req) env.r2 env.INDEX
    rw [hf] at htake
    rcases htake with ⟨n, hn⟩
    have hlen : keys.length ≤ (splitChar ':' env.INDEX).length := by
      have : keys = ((((splitChar ':' env.INDEX).map (fun name => jsTrim name)).map
          (fun i => joinPath (getRequestPath req) i)).take n) := hn
      rw [this]
      simp [List.length_take_le]
    simp only [List.length_cons]
    omega
  · unfold fetchKeys
    rw [hc]
    have htake := downloadIndexFile_keys_take (getRequestPath req) env.r2 env.INDEX
    rw [hf] at htake
    rcases htake with ⟨n, hn⟩
    have hlen : keys.length ≤ (splitChar ':' env.INDEX).length := by
      have : keys = ((((splitChar ':' env.INDEX).map (fun name => jsTrim name)).map
          (fun i => joinPath (getRequestPath req) i)).take n) := hn
      rw [this]
      simp [List.length_take_le]
    simp only [List.length_cons]
    omega
  · exact ⟨0, by unfold fetchKeys; rw [hc]; rfl⟩
  · exact ⟨0, by unfold fetchKeys; rw [hc]; rfl⟩
  · exact ⟨0, by unfold fetchKeys; rw [hc]; rfl⟩
  · refine ⟨1, ?_⟩
    unfold fetchKeys
    rw [hc]
    simp
  · have htake := downloadIndexFile_keys_take (getRequestPath req) env.r2 env.INDEX
    rw [hf] at htake
    rcases htake with ⟨n, hn⟩
    refine ⟨n + 1, ?_⟩
    unfold fetchKeys
    rw [hc]
    unfold indexKeys
    rw [List.take_succ_cons, ← hn]
  · have htake := downloadIndexFile_keys_take (getRequestPath req) env.r2 env.INDEX
    rw [hf] at htake
    rcases htake with ⟨n, hn⟩
    refine ⟨n + 1, ?_⟩
    unfold fetchKeys
    rw [hc]
    unfold indexKeys
    rw [List.take_succ_cons, ← hn]

/-- C9 witness: a GET for `/zzz` against the test environment queries
`zzz`, `zzz/index.html`, `zzz/index.txt` — within the bound, an initial
segment of the candidates, and the non-final key `zzz` missed. -/
theorem C9_witness :
    (fetchKeys reqC3 envW).length ≤ 1 + (splitChar ':' envW.INDEX).length ∧
    (∃ n, fetchKeys reqC3 envW = (getRequestPath reqC3 :: indexKeys reqC3 envW).take n) ∧
    envW.r2 "zzz" = none :=
  ⟨(C9_sequential_lookups_bounded reqC3 envW).1,
   (C9_sequential_lookups_bounded reqC3 envW).2.1,
   (C9_sequential_lookups_bounded reqC3 envW).2.2 "zzz" (by decide)⟩

/-- C10: a request answered 405 or 401 performed no storage lookup at all:
the bucket is only consulted after the method check and credential validation
both succeed. -/
theorem C10_no_lookup_on_405_401 (req : Request) (env : Environment)
    (h : (fetch req env).status = 405 ∨ (fetch req env).status = 401) :
    fetchKeys req env = [] := by
  rcases fetchCore_cases req env with hc | hc | hc | ⟨o, hd, hc⟩ | ⟨hd, o, keys, hf, hc⟩ |
    ⟨hd, keys, hf, hc⟩
  · unfold fetchKeys; rw [hc]
  · unfold fetchKeys; rw [hc]
  · unfold fetchKeys; rw [hc]
  · exfalso
    have hr : fetch req env = createFileResponse o := by unfold fetch; rw [hc]
    rw [hr] at h
    simp [createFileResponse] at h
  · exfalso
    have hr : fetch req env = createFileResponse o := by unfold fetch; rw [hc]
    rw [hr] at h
    simp [createFileResponse] at h
  · exfalso
    have hr : fetch req env =
        HttpError.toResponse { status := 404, description := "Not found", headers := [] } := by
      unfold fetch; rw [hc]
    rw [hr] at h
    simp [HttpError.toResponse] at h

/-- C10 witness: a POST request (answered 405) queries no key. -/
theorem C10_witness :
    fetchKeys { method := "POST", pathname := "/bar/baz", authorization := none } envW = [] :=
  C10_no_lookup_on_405_401 _ envW (Or.inl (by decide))

end R2Http
